import Mathlib

/-!
Verification of the Discord/Stoat bridge (src/bridge.py).

This file shallowly embeds the bridge's data model and operations:
the bidirectional message-correlation cache (two `OrderedDict`s,
`_d2s`/`_s2d`), the self-delete marker sets (`_discord_deleting`,
`_stoat_deleting`), the delete-event handlers, the attachment fetch
helper (`fetch_bytes`), the Discord content sanitizer
(`clean_discord_content`), and the two message-forward pipelines.

Discord message ids are modelled as `Nat` (Python `int`), Stoat message
ids as `String`, matching the source type annotations.  Python strings
are modelled as Lean `String`s; Python slicing `s[:n]`, `str.strip`,
`str.replace` on a one-character pattern are given explicit executable
models operating on the underlying character list.
-/

namespace Bridge

/-- bridge.py line 69: 25MB file size limit due to discord's restrictions. -/
def MAX_FILE_SIZE : Nat := 25 * 1024 * 1024

/-- bridge.py line 72: number of messages stored in cache for reply support. -/
def MSG_CACHE_SIZE : Nat := 500

/-! ### Python string primitives -/

/-- Python `s[:n]`: the first `n` code points of `s`. -/
def pySlice (n : Nat) (s : String) : String := ⟨s.data.take n⟩

/-- Python `s.replace(chr(10), " ")`: every newline becomes a space
(single-character pattern, so replacement is a per-character map). -/
def replaceNewlines (s : String) : String :=
  ⟨s.data.map (fun c => if c = '\n' then ' ' else c)⟩

/-- Python `s.strip()`: drop leading and trailing whitespace. -/
def pyStrip (s : String) : String :=
  ⟨((s.data.dropWhile Char.isWhitespace).reverse.dropWhile Char.isWhitespace).reverse⟩

/-! ### OrderedDict model

`_d2s` and `_s2d` (bridge.py lines 175-176) are `OrderedDict`s.  An
`OrderedDict` is modelled as an association list in insertion order:
the head is the oldest entry (the one `popitem(last=False)` removes),
the last element is the most recently inserted/moved entry.  Keys are
unique in every reachable state, since entries are only created through
`odRecord`. -/

/-- Python `cache.get(k)` / `cache[k]`: value of the first entry with key `k`.
A plain read: it does not move the entry (`dict.get` never reorders). -/
def odGet {K V : Type} [BEq K] (k : K) (l : List (K × V)) : Option V :=
  (l.find? (fun p => p.1 == k)).map (fun p => p.2)

/-- The keys of the dict, in order. -/
def odKeys {K V : Type} (l : List (K × V)) : List K := l.map (fun p => p.1)

/-- Python `cache.move_to_end(k)`: move the entry with key `k` to the
most-recently-used end, keeping the relative order of the others. -/
def odMoveToEnd {K V : Type} [BEq K] (k : K) (l : List (K × V)) : List (K × V) :=
  l.filter (fun p => !(p.1 == k)) ++ l.filter (fun p => p.1 == k)

/-- Python `cache[k] = v`: update the value in place if `k` is present,
else append a new entry at the most-recently-used end. -/
def odSet {K V : Type} [BEq K] (k : K) (v : V) (l : List (K × V)) : List (K × V) :=
  if (l.find? (fun p => p.1 == k)).isSome then
    l.map (fun p => if p.1 == k then (k, v) else p)
  else
    l ++ [(k, v)]

/-- One directional half of `_cache_pair` (bridge.py lines 189-194):

    if key in cache:
        cache.move_to_end(key)
    cache[key] = val
    if len(cache) > MSG_CACHE_SIZE:
        cache.popitem(last=False)
-/
def odRecord {K V : Type} [BEq K] (cap : Nat) (k : K) (v : V)
    (l : List (K × V)) : List (K × V) :=
  let l1 := if (odGet k l).isSome then odMoveToEnd k l else l
  let l2 := odSet k v l1
  if cap < l2.length then l2.tail else l2

/-! ### Loop-guard marker sets

`_discord_deleting` / `_stoat_deleting` (bridge.py lines 184-185) are
Python `set`s; inserting a marker is `set.add`, and the loop-break at
the top of each delete handler is membership test plus `set.discard`. -/

/-- Marking an id as self-initiated: `set.add` (bridge.py lines 635, 869). -/
def markSelfInitiated {α : Type} [DecidableEq α] (s : Finset α) (id : α) : Finset α :=
  insert id s

/-- The loop-break check at the top of each delete handler
(bridge.py lines 621-623 and 851-853):

    if msg_id in deleting:
        deleting.discard(msg_id)
        return

Returns whether the marker was present, and the marker set afterwards. -/
def consumeIfSelfInitiated {α : Type} [DecidableEq α] (s : Finset α) (id : α) :
    Bool × Finset α :=
  if id ∈ s then (true, s.erase id) else (false, s)

/-! ### Shared mutable state -/

/-- The bridge's shared mutable state (bridge.py lines 172-185):
the two correlation `OrderedDict`s, the set of Discord message ids that
were sent via webhook, and the two self-delete marker sets. -/
structure BridgeState where
  d2s : List (Nat × String)
  s2d : List (String × Nat)
  webhookDiscordIds : Finset Nat
  discordDeleting : Finset Nat
  stoatDeleting : Finset String

/-- The state at process start: everything empty. -/
def emptyState : BridgeState :=
  { d2s := [], s2d := [], webhookDiscordIds := ∅,
    discordDeleting := ∅, stoatDeleting := ∅ }

/-- Embeds `_cache_pair(discord_id, stoat_id, from_webhook=...)`
(bridge.py lines 188-196): records the pair in both directional maps and
optionally marks the Discord id as webhook-sent. -/
def cachePair (st : BridgeState) (discordId : Nat) (stoatId : String)
    (fromWebhook : Bool) : BridgeState :=
  { st with
    d2s := odRecord MSG_CACHE_SIZE discordId stoatId st.d2s,
    s2d := odRecord MSG_CACHE_SIZE stoatId discordId st.s2d,
    webhookDiscordIds :=
      if fromWebhook then insert discordId st.webhookDiscordIds
      else st.webhookDiscordIds }

/-- Embeds `_d2s.get(x)` as used at bridge.py lines 782 and 859: a pure read. -/
def lookupD2S (st : BridgeState) (discordId : Nat) : Option String :=
  odGet discordId st.d2s

/-- Embeds `_s2d.get(x)` as used at bridge.py line 625: a pure read. -/
def lookupS2D (st : BridgeState) (stoatId : String) : Option Nat :=
  odGet stoatId st.s2d

/-- Record a list of pairs in order, starting from a given state
(each element via `_cache_pair` with `from_webhook=False`). -/
def recordAllFrom (st : BridgeState) (ps : List (Nat × String)) : BridgeState :=
  ps.foldl (fun s p => cachePair s p.1 p.2 false) st

/-- Record a list of pairs in order starting from the empty state. -/
def recordAll (ps : List (Nat × String)) : BridgeState :=
  recordAllFrom emptyState ps

/-! ### Channel configuration

`STOAT_TO_DISCORD` / `DISCORD_TO_STOAT` (bridge.py lines 65-66) are dicts
built from `zip(DISCORD_CHANNEL_IDS, STOAT_CHANNEL_IDS)`. -/

/-- The startup channel configuration: the two parallel channel-id lists. -/
structure Config where
  discordChannelIds : List Nat
  stoatChannelIds : List String

/-- Embeds `DISCORD_TO_STOAT.get(d)` (dict from `{d: s for d, s in zip(...)}`). -/
def Config.discordToStoat (cfg : Config) (d : Nat) : Option String :=
  odGet d (cfg.discordChannelIds.zip cfg.stoatChannelIds)

/-- Embeds `STOAT_TO_DISCORD.get(s)` (dict from `{s: d for d, s in zip(...)}`). -/
def Config.stoatToDiscord (cfg : Config) (s : String) : Option Nat :=
  odGet s (cfg.stoatChannelIds.zip cfg.discordChannelIds)

/-! ### Delete propagation

The two delete handlers, `DiscordBot.on_raw_message_delete`
(bridge.py lines 846-872) and `StoatBot.on_message_delete`
(bridge.py lines 605-688).  Each outward network call the handlers make
is recorded as an `Action`; the outcome of each call (HTTP success /
NotFound / other error) is supplied by an oracle `Action → DeleteCallResult`,
since the remote platforms are external collaborators.  The extraction of
`message_id`/`channel_id` from the raw event object (`_extract_id`) is
adapter glue and is modelled by passing the extracted ids as parameters;
the `_stoat_bot`/`_discord_bot` cross-references are set in `main()`
before either client starts, so they are modelled as present. -/

/-- An outward delete call issued by a handler. -/
inductive Action where
  | deleteStoatMessage (channelId messageId : String)
  | deleteDiscordWebhookMessage (webhookId messageId : Nat)
  | deleteDiscordUserMessage (channelId messageId : Nat)
deriving DecidableEq

/-- Outcome of an outward delete call. -/
inductive DeleteCallResult where
  | success
  | notFound
  | error
deriving DecidableEq

/-- Embeds `DiscordBot.on_raw_message_delete` (bridge.py lines 846-872).
`messageId` and `channelId` are `payload.message_id` / `payload.channel_id`.
`delete_stoat_message` returns `True` exactly on HTTP 200/204, so its
result is `outcome ... = .success`.  Returns the new state and the list
of delete calls issued. -/
def onRawMessageDelete (cfg : Config) (outcome : Action → DeleteCallResult)
    (st : BridgeState) (messageId : Nat) (channelId : Nat) :
    BridgeState × List Action :=
  match consumeIfSelfInitiated st.discordDeleting messageId with
  | (true, s1) => ({ st with discordDeleting := s1 }, [])
  | (false, _) =>
    match cfg.discordToStoat channelId with
    | none => (st, [])
    | some stoatChId =>
      match lookupD2S st messageId with
      | none => (st, [])
      | some stoatMsgId =>
        let st1 := { st with
          stoatDeleting := markSelfInitiated st.stoatDeleting stoatMsgId }
        let call := Action.deleteStoatMessage stoatChId stoatMsgId
        if outcome call = DeleteCallResult.success then (st1, [call])
        else ({ st1 with stoatDeleting := st1.stoatDeleting.erase stoatMsgId },
              [call])

/-- The fallback loop of `StoatBot.on_message_delete` when no webhook is
known for the resolved channel (bridge.py lines 641-653): try every
webhook in turn; on success discard the id from `_webhook_discord_ids`
and stop; on NotFound discard the self-delete marker and stop; on any
other error try the next webhook; when all fail discard the marker. -/
def webhookFallbackLoop (outcome : Action → DeleteCallResult)
    (discordMsgId : Nat) (st : BridgeState) :
    List Nat → BridgeState × List Action
  | [] => ({ st with discordDeleting := st.discordDeleting.erase discordMsgId }, [])
  | wh :: rest =>
    let call := Action.deleteDiscordWebhookMessage wh discordMsgId
    match outcome call with
    | DeleteCallResult.success =>
        ({ st with webhookDiscordIds := st.webhookDiscordIds.erase discordMsgId },
         [call])
    | DeleteCallResult.notFound =>
        ({ st with discordDeleting := st.discordDeleting.erase discordMsgId },
         [call])
    | DeleteCallResult.error =>
        let (st2, acts) := webhookFallbackLoop outcome discordMsgId st rest
        (st2, call :: acts)

/-- Embeds `StoatBot.on_message_delete` (bridge.py lines 605-688).
`webhooks` models the `discord_webhooks` dict as an association list
`(discord channel id, webhook id)`; `channelId` is the extracted
`channel_id` of the event (`none` when the event lacks one, in which
case the handler falls back to the first configured stoat channel whose
Discord peer has a webhook). -/
def stoatOnMessageDelete (cfg : Config) (webhooks : List (Nat × Nat))
    (outcome : Action → DeleteCallResult) (st : BridgeState)
    (messageId : String) (channelId : Option String) :
    BridgeState × List Action :=
  match consumeIfSelfInitiated st.stoatDeleting messageId with
  | (true, s1) => ({ st with stoatDeleting := s1 }, [])
  | (false, _) =>
    match lookupS2D st messageId with
    | none => (st, [])
    | some discordMsgId =>
      let stoatChId :=
        match channelId with
        | some c => some c
        | none =>
          ((cfg.stoatChannelIds.zip cfg.discordChannelIds).find?
            (fun p : String × Nat => (odGet p.2 webhooks).isSome)).map
            (fun p : String × Nat => p.1)
      let discordChId := stoatChId.bind cfg.stoatToDiscord
      let st1 := { st with
        discordDeleting := markSelfInitiated st.discordDeleting discordMsgId }
      if discordMsgId ∈ st.webhookDiscordIds then
        -- Case 1: the message was originally sent via webhook
        match discordChId.bind (fun c => odGet c webhooks) with
        | none => webhookFallbackLoop outcome discordMsgId st1 (webhooks.map (fun p => p.2))
        | some wh =>
          let call := Action.deleteDiscordWebhookMessage wh discordMsgId
          match outcome call with
          | DeleteCallResult.success =>
              ({ st1 with webhookDiscordIds := st1.webhookDiscordIds.erase discordMsgId },
               [call])
          | DeleteCallResult.notFound =>
              ({ st1 with discordDeleting := st1.discordDeleting.erase discordMsgId },
               [call])
          | DeleteCallResult.error =>
              ({ st1 with discordDeleting := st1.discordDeleting.erase discordMsgId },
               [call])
      else
        -- Case 2: the message was originally sent by a Discord user
        match discordChId with
        | none =>
            ({ st1 with discordDeleting := st1.discordDeleting.erase discordMsgId },
             [])
        | some dch =>
          let call := Action.deleteDiscordUserMessage dch discordMsgId
          match outcome call with
          | DeleteCallResult.success => (st1, [call])
          | DeleteCallResult.notFound =>
              ({ st1 with discordDeleting := st1.discordDeleting.erase discordMsgId },
               [call])
          | DeleteCallResult.error =>
              ({ st1 with discordDeleting := st1.discordDeleting.erase discordMsgId },
               [call])

/-! ### Attachment download (`fetch_bytes`, bridge.py lines 228-247)

The HTTP response is modelled by its status code, optional numeric
`Content-Length` header, and body bytes.  `fetch_bytes` returns the
optional `(data, filename)` result together with a flag recording
whether the body was read (`resp.read()` reached), which captures the
before/after ordering of the two size checks. -/

/-- An HTTP response as observed by `fetch_bytes`: status code,
`Content-Length` header (absent / non-numeric headers are `none`),
and the body bytes the server would deliver. -/
structure HttpResponse where
  status : Nat
  contentLength : Option Nat
  body : List Nat

/-- Embeds `url.split("?")[0].rstrip("/").rsplit("/", 1)[-1] or "file"`
(bridge.py line 243). -/
def filenameFromUrl (url : String) : String :=
  let beforeQuery := url.data.takeWhile (fun c => !(c = '?'))
  let trimmed := (beforeQuery.reverse.dropWhile (fun c => c = '/')).reverse
  let name := (trimmed.reverse.takeWhile (fun c => !(c = '/'))).reverse
  if name = [] then "file" else ⟨name⟩

/-- Embeds `fetch_bytes` (bridge.py lines 228-247).  First component: the
returned `(data, filename)` or `None`; second component: whether
`resp.read()` was executed. -/
def fetch_bytes (resp : HttpResponse) (url : String) :
    Option (List Nat × String) × Bool :=
  if resp.status ≠ 200 then (none, false)
  else
    match resp.contentLength with
    | some cl =>
      if MAX_FILE_SIZE < cl then (none, false)
      else if MAX_FILE_SIZE < resp.body.length then (none, true)
      else (some (resp.body, filenameFromUrl url), true)
    | none =>
      if MAX_FILE_SIZE < resp.body.length then (none, true)
      else (some (resp.body, filenameFromUrl url), true)

/-- A Stoat attachment as seen by `on_message_create` (bridge.py lines
564-575): the asset url (`None` when `_stoat_asset_url` fails), the
`filename` attribute, and the HTTP response its url would produce. -/
structure StoatAttachment where
  url : Option String
  filename : Option String
  resp : HttpResponse

/-- The attachment loop of `StoatBot.on_message_create`
(bridge.py lines 563-575): attachments without a url are skipped; a
failed fetch appends a newline plus the raw url to the content; a
successful fetch appends a `discord.File` (modelled as `(data, name)`).
`filename = getattr(att, "filename", None) or "file"` is always truthy,
so `filename or fname` is always `filename`. -/
def stoatAttachmentStep (acc : String × List (List Nat × String))
    (att : StoatAttachment) : String × List (List Nat × String) :=
  match att.url with
  | none => acc
  | some url =>
    if url = "" then acc
    else
      match (fetch_bytes att.resp url).1 with
      | none => (acc.1 ++ "\n" ++ url, acc.2)
      | some (data, _fname) =>
        let filename :=
          match att.filename with
          | some f => if f = "" then "file" else f
          | none => "file"
        (acc.1, acc.2 ++ [(data, filename)])

def processStoatAttachments (content : String) (atts : List StoatAttachment) :
    String × List (List Nat × String) :=
  atts.foldl stoatAttachmentStep (content, [])

/-! ### Reply resolution and the two forward pipelines -/

/-- The reply step of `DiscordBot.on_message` (bridge.py lines 779-804).
`ref` is `message.reference.message_id` when a reference is present;
`fetched` is the best-effort result of fetching the referenced Discord
message (`(author display name, content)`, `none` on fetch failure).
Returns the (possibly quote-prefixed) content and the `replies` list for
the Stoat send call (the cached stoat id when the cache hits). -/
def discordReplyStep (st : BridgeState) (content : String) (ref : Option Nat)
    (fetched : Option (String × String)) : String × List String :=
  match ref with
  | none => (content, [])
  | some refId =>
    match lookupD2S st refId with
    | some sid =>
      -- Python `if cached_stoat_id:`: an empty string is falsy
      if sid = "" then
        match fetched with
        | none => (content, [])
        | some (author, orig) =>
          ("-# ↩ **" ++ pySlice 50 author ++ "**: *" ++
            replaceNewlines (pySlice 80 orig) ++ "*\n" ++ content, [])
      else (content, [sid])
    | none =>
      match fetched with
      | none => (content, [])
      | some (author, orig) =>
        ("-# ↩ **" ++ pySlice 50 author ++ "**: *" ++
          replaceNewlines (pySlice 80 orig) ++ "*\n" ++ content, [])

/-- The reply step of `StoatBot.on_message_create` (bridge.py lines
546-560).  `replyId` is the extracted id of the first entry of
`msg.replies`; `fetched` is the result of `fetch_stoat_message`
(`(display name, content)`, `none` on failure).  The correlation cache
is not consulted; the quote is synthesized from the fetch alone. -/
def stoatReplyStep (content : String) (replyId : Option String)
    (fetched : Option (String × String)) : String :=
  match replyId with
  | none => content
  | some rid =>
    -- Python `if reply_id:`: an empty string is falsy
    if rid = "" then content
    else
      match fetched with
      | none => content
      | some (author, orig) =>
        "-# ↩ **" ++ pySlice 50 author ++ "**: *" ++
          replaceNewlines (pySlice 80 orig) ++ "*\n" ++ content

/-- Embeds `content += f" {att.url}"` for each attachment
(bridge.py lines 807-808). -/
def discordAppendAttachmentUrls (content : String) (urls : List String) : String :=
  urls.foldl (fun c u => c ++ " " ++ u) content

/-- The keyword arguments of the `ch.send(**send_kwargs)` call in
`DiscordBot.on_message` (bridge.py lines 819-830): masquerade name,
text content, and the optional native-reply list.  There is no
file/attachment argument in this direction. -/
structure StoatSendCall where
  masqueradeName : String
  content : String
  replies : List String
deriving DecidableEq

/-- The arguments of the `webhook.send(...)` call in
`StoatBot.on_message_create` (bridge.py lines 588-594): optional text
content (`discord.utils.MISSING` is `none`), username, and files. -/
structure DiscordSendCall where
  content : Option String
  username : String
  files : List (List Nat × String)
deriving DecidableEq

/-- The Discord → Stoat forward pipeline of `DiscordBot.on_message`
(bridge.py lines 776-830), from the sanitized content on: reply
resolution, attachment-url appending, the empty-content drop check, and
the send-call construction.  `content` is the result of
`clean_discord_content`; `authorName` is `message.author.display_name`.
Returns `none` when the message is dropped. -/
def forwardDiscordMessage (st : BridgeState) (content : String)
    (ref : Option Nat) (fetched : Option (String × String))
    (attachmentUrls : List String) (authorName : String) :
    Option StoatSendCall :=
  let c1 := (discordReplyStep st content ref fetched).1
  let replies := (discordReplyStep st content ref fetched).2
  let c2 := discordAppendAttachmentUrls c1 attachmentUrls
  if pyStrip c2 = "" then none
  else some { masqueradeName := pySlice 32 authorName,
              content := pySlice 2000 c2,
              replies := replies }

/-- The Stoat → Discord forward pipeline of `StoatBot.on_message_create`
(bridge.py lines 541-594), from the sanitized content on: reply-quote
synthesis, attachment relay, the drop check, and the webhook send-call
construction.  The bridge state `st` is in scope exactly as the global
cache is in the handler; the reply step never reads it.  Returns `none`
when the message is dropped. -/
def forwardStoatMessage (st : BridgeState) (content : String)
    (replyId : Option String) (fetched : Option (String × String))
    (atts : List StoatAttachment) (authorName : String) :
    Option DiscordSendCall :=
  let c1 := stoatReplyStep content replyId fetched
  let c2 := (processStoatAttachments c1 atts).1
  let files := (processStoatAttachments c1 atts).2
  if pyStrip c2 = "" ∧ files = [] then none
  else
    some { content := if pyStrip c2 = "" then none else some (pySlice 2000 c2),
           username := pySlice 80 authorName,
           files := files }

/-! ### Discord content sanitizer (`clean_discord_content`, bridge.py 390-421)

The four regex passes (`<@!?(\d+)>`, `<#(\d+)>`, `<@&(\d+)>`,
`<a?:([A-Za-z0-9_]+):\d+>`) replace non-overlapping matches; the user
pass splices replacements in reverse document order and the others use
`re.sub`, so each pass replaces every match left to right.  Each pass is
modelled as a left-to-right scanner: a matcher tries to recognise a
token at the current position and returns the replacement text plus the
number of characters matched.  The two-step member resolution
(`guild.get_member` then `await guild.fetch_member`, exceptions giving
`None`) is modelled as a single partial map from user id to display
name; an absent guild corresponds to all resolvers returning `none`. -/

/-- Python `int()` on a digit group. -/
def natOfDigits (ds : List Char) : Nat :=
  ds.foldl (fun n c => 10 * n + (c.toNat - 48)) 0

/-- Matcher for `<@!?(\d+)>`; resolution result as at bridge.py 395-407:
`@{member.display_name}` on success, `f"@user{uid}"` otherwise. -/
def matchDiscordUser (resolve : Nat → Option String) :
    List Char → Option (String × Nat)
  | '<' :: '@' :: rest =>
    let (bang, rest1) :=
      match rest with
      | '!' :: r => (1, r)
      | r => (0, r)
    let ds := rest1.takeWhile Char.isDigit
    if ds = [] then none
    else
      match rest1.drop ds.length with
      | '>' :: _ =>
        let uid := natOfDigits ds
        let name :=
          match resolve uid with
          | some dn => "@" ++ dn
          | none => "@user" ++ Nat.repr uid
        some (name, 2 + bang + ds.length + 1)
      | _ => none
  | _ => none

/-- Matcher for `<#(\d+)>`; `f"#{ch.name}"` on success, `"#channel"`
otherwise (bridge.py 409-413). -/
def matchDiscordChannel (resolve : Nat → Option String) :
    List Char → Option (String × Nat)
  | '<' :: '#' :: rest =>
    let ds := rest.takeWhile Char.isDigit
    if ds = [] then none
    else
      match rest.drop ds.length with
      | '>' :: _ =>
        let name :=
          match resolve (natOfDigits ds) with
          | some n => "#" ++ n
          | none => "#channel"
        some (name, 2 + ds.length + 1)
      | _ => none
  | _ => none

/-- Matcher for `<@&(\d+)>`; `f"@{role.name}"` on success, `"@role"`
otherwise (bridge.py 415-419). -/
def matchDiscordRole (resolve : Nat → Option String) :
    List Char → Option (String × Nat)
  | '<' :: '@' :: '&' :: rest =>
    let ds := rest.takeWhile Char.isDigit
    if ds = [] then none
    else
      match rest.drop ds.length with
      | '>' :: _ =>
        let name :=
          match resolve (natOfDigits ds) with
          | some n => "@" ++ n
          | none => "@role"
        some (name, 3 + ds.length + 1)
      | _ => none
  | _ => none

/-- A character allowed in a custom-emoji name: `[A-Za-z0-9_]`. -/
def isEmojiNameChar (c : Char) : Bool :=
  c.isAlpha || c.isDigit || c = '_'

/-- Tail of the emoji matcher, after `<:` or `<a:` was consumed:
recognises `name:digits>` and yields `f":{name}:"`. -/
def matchEmojiCore (already : Nat) (l : List Char) : Option (String × Nat) :=
  let name := l.takeWhile isEmojiNameChar
  if name = [] then none
  else
    match l.drop name.length with
    | ':' :: r2 =>
      let ds := r2.takeWhile Char.isDigit
      if ds = [] then none
      else
        match r2.drop ds.length with
        | '>' :: _ =>
          some (":" ++ (⟨name⟩ : String) ++ ":",
                already + name.length + 1 + ds.length + 1)
        | _ => none
    | _ => none

/-- Matcher for `<a?:([A-Za-z0-9_]+):\d+>` with replacement
`f":{m.group(1)}:"` (bridge.py lines 364 and 420). -/
def matchDiscordEmoji : List Char → Option (String × Nat)
  | '<' :: 'a' :: ':' :: rest => matchEmojiCore 3 rest
  | '<' :: ':' :: rest => matchEmojiCore 2 rest
  | _ => none

/-- One substitution pass: scan left to right, replacing each match and
continuing after it.  Fuel-indexed (fuel ≥ remaining length always
holds, since every step consumes at least one character). -/
def substAux (m : List Char → Option (String × Nat)) :
    Nat → List Char → List Char
  | 0, l => l
  | _ + 1, [] => []
  | fuel + 1, c :: cs =>
    match m (c :: cs) with
    | some (rep, n) => rep.data ++ substAux m fuel (cs.drop (n - 1))
    | none => c :: substAux m fuel cs

/-- One substitution pass over a string. -/
def subst (m : List Char → Option (String × Nat)) (s : List Char) : List Char :=
  substAux m s.length s

/-- Embeds `clean_discord_content` (bridge.py lines 390-421): resolve user,
channel, and role mentions and custom-emoji tokens, in that order. -/
def clean_discord_content (userRes chanRes roleRes : Nat → Option String)
    (content : String) : String :=
  let r1 := subst (matchDiscordUser userRes) content.data
  let r2 := subst (matchDiscordChannel chanRes) r1
  let r3 := subst (matchDiscordRole roleRes) r2
  let r4 := subst matchDiscordEmoji r3
  ⟨r4⟩

/-! ## Helper lemmas -/

section ODLemmas

variable {K V : Type} [BEq K] [LawfulBEq K]

theorem not_mem_odKeys_iff {k : K} {l : List (K × V)} :
    k ∉ odKeys l ↔ ∀ p ∈ l, p.1 ≠ k := by
  simp only [odKeys, List.mem_map]
  constructor
  · intro h p hp he
    exact h ⟨p, hp, he⟩
  · rintro h ⟨p, hp, he⟩
    exact h p hp he

theorem odGet_eq_none_iff {k : K} {l : List (K × V)} :
    odGet k l = none ↔ k ∉ odKeys l := by
  rw [not_mem_odKeys_iff]
  simp only [odGet, Option.map_eq_none', List.find?_eq_none, beq_iff_eq]

theorem mem_of_odGet_eq_some {k : K} {v : V} {l : List (K × V)}
    (h : odGet k l = some v) : (k, v) ∈ l := by
  unfold odGet at h
  cases hf : l.find? (fun p => p.1 == k) with
  | none => rw [hf] at h; simp at h
  | some p =>
    have hm := List.mem_of_find?_eq_some hf
    have hp : p.1 = k := by simpa using List.find?_some hf
    rw [hf] at h
    simp only [Option.map_some'] at h
    rw [Option.some_inj] at h
    obtain ⟨p1, p2⟩ := p
    simp only at hp h
    rw [hp, h] at hm
    exact hm

theorem odGet_eq_some_of_mem {k : K} {v : V} {l : List (K × V)}
    (hn : (odKeys l).Nodup) (h : (k, v) ∈ l) : odGet k l = some v := by
  induction l with
  | nil => simp at h
  | cons q rest ih =>
    have hcons : odKeys (q :: rest) = q.1 :: odKeys rest := rfl
    rw [hcons] at hn
    have hn1 := (List.nodup_cons.1 hn).1
    have hn2 := (List.nodup_cons.1 hn).2
    rw [List.mem_cons] at h
    rcases h with h | h
    · rw [← h]
      simp [odGet]
    · have hq : q.1 ≠ k := by
        intro he
        apply hn1
        rw [he]
        simp only [odKeys, List.mem_map]
        exact ⟨(k, v), h, rfl⟩
      have hrec := ih hn2 h
      simp only [odGet, List.find?] at hrec ⊢
      have hqb : (q.1 == k) = false := by simpa using hq
      rw [hqb]
      exact hrec

theorem odGet_eq_some_iff_mem {k : K} {v : V} {l : List (K × V)}
    (hn : (odKeys l).Nodup) : odGet k l = some v ↔ (k, v) ∈ l :=
  ⟨mem_of_odGet_eq_some, odGet_eq_some_of_mem hn⟩

/-- Applying `odRecord` with a fresh key appends the pair and, when over capacity,
pops the oldest entry. -/
theorem odRecord_fresh {cap : Nat} {k : K} {v : V} {l : List (K × V)}
    (h : k ∉ odKeys l) :
    odRecord cap k v l =
      if cap < l.length + 1 then (l ++ [(k, v)]).tail else l ++ [(k, v)] := by
  have hg : odGet k l = none := odGet_eq_none_iff.2 h
  have hf : l.find? (fun p => p.1 == k) = none := by
    rw [List.find?_eq_none]
    intro p hp
    simpa using (not_mem_odKeys_iff.1 h) p hp
  unfold odRecord odSet
  rw [hg]
  simp only [Option.isSome_none, Bool.false_eq_true, if_false, hf,
    List.length_append, List.length_singleton]

theorem odRecord_fresh_no_evict {cap : Nat} {k : K} {v : V} {l : List (K × V)}
    (h : k ∉ odKeys l) (hlen : l.length + 1 ≤ cap) :
    odRecord cap k v l = l ++ [(k, v)] := by
  rw [odRecord_fresh h, if_neg (by omega)]

theorem odRecord_fresh_evict {cap : Nat} {k : K} {v : V} {l : List (K × V)}
    (h : k ∉ odKeys l) (hlen : l.length = cap) (hpos : 0 < cap) :
    odRecord cap k v l = l.tail ++ [(k, v)] := by
  rw [odRecord_fresh h, if_pos (by omega)]
  obtain ⟨q, rest, rfl⟩ : ∃ q rest, l = q :: rest := by
    cases l with
    | nil => simp at hlen; omega
    | cons q rest => exact ⟨q, rest, rfl⟩
  rfl

/-- Keys after a fresh `odRecord` come from the old keys or the new key. -/
theorem odKeys_odRecord_fresh_subset {cap : Nat} {k : K} {v : V}
    {l : List (K × V)} (h : k ∉ odKeys l) :
    ∀ x ∈ odKeys (odRecord cap k v l), x ∈ odKeys l ∨ x = k := by
  intro x hx
  rw [odRecord_fresh h] at hx
  have hx2 : x ∈ odKeys (l ++ [(k, v)]) := by
    by_cases hc : cap < l.length + 1
    · rw [if_pos hc] at hx
      have : odKeys ((l ++ [(k, v)]).tail) = (odKeys (l ++ [(k, v)])).tail := by
        simp [odKeys, List.map_tail]
      rw [this] at hx
      exact (List.tail_sublist _).mem hx
    · rwa [if_neg hc] at hx
  simpa [odKeys] using hx2

theorem odKeys_nodup_odRecord_fresh {cap : Nat} {k : K} {v : V}
    {l : List (K × V)} (h : k ∉ odKeys l) (hn : (odKeys l).Nodup) :
    (odKeys (odRecord cap k v l)).Nodup := by
  rw [odRecord_fresh h]
  have happ : (odKeys (l ++ [(k, v)])).Nodup := by
    simp only [odKeys, List.map_append, List.map_singleton]
    rw [List.nodup_append]
    refine ⟨hn, List.nodup_singleton _, ?_⟩
    intro x hx
    simp only [List.mem_singleton]
    intro he
    rw [he] at hx
    exact h hx
  by_cases hc : cap < l.length + 1
  · rw [if_pos hc]
    have : odKeys ((l ++ [(k, v)]).tail) = (odKeys (l ++ [(k, v)])).tail := by
      simp [odKeys, List.map_tail]
    rw [this]
    exact happ.sublist (List.tail_sublist _)
  · rwa [if_neg hc]

end ODLemmas

/-! ### The mirror invariant of the correlation cache -/

/-- The two directional maps mirror each other entry for entry (in the
same recency order) and each has unique keys. -/
def mirrored (st : BridgeState) : Prop :=
  st.s2d = st.d2s.map (fun p => (p.2, p.1)) ∧
  (odKeys st.d2s).Nodup ∧ (odKeys st.s2d).Nodup

theorem emptyState_mirrored : mirrored emptyState := by
  refine ⟨rfl, ?_, ?_⟩ <;> simp [emptyState, odKeys]

/-- Recording a pair of ids that are both fresh preserves the mirror
invariant (the two halves of `_cache_pair` append and evict in
lockstep). -/
theorem cachePair_mirrored {st : BridgeState} {a : Nat} {b : String}
    {w : Bool} (hm : mirrored st) (ha : a ∉ odKeys st.d2s)
    (hb : b ∉ odKeys st.s2d) : mirrored (cachePair st a b w) := by
  obtain ⟨hmir, hnd, hns⟩ := hm
  refine ⟨?_, ?_, ?_⟩
  · show odRecord MSG_CACHE_SIZE b a st.s2d =
      (odRecord MSG_CACHE_SIZE a b st.d2s).map (fun p => (p.2, p.1))
    rw [odRecord_fresh ha, odRecord_fresh hb, hmir, List.length_map]
    by_cases hc : MSG_CACHE_SIZE < st.d2s.length + 1
    · rw [if_pos hc, if_pos hc, List.map_tail, List.map_append]
      rfl
    · rw [if_neg hc, if_neg hc, List.map_append]
      rfl
  · exact odKeys_nodup_odRecord_fresh ha hnd
  · exact odKeys_nodup_odRecord_fresh hb hns

/-- Recording a sequence of pairwise-fresh pairs preserves the mirror
invariant, across evictions. -/
theorem recordAllFrom_mirrored (ps : List (Nat × String)) :
    ∀ st : BridgeState, mirrored st →
    (∀ p ∈ ps, p.1 ∉ odKeys st.d2s) →
    (∀ p ∈ ps, p.2 ∉ odKeys st.s2d) →
    (ps.map (fun p => p.1)).Nodup →
    (ps.map (fun p => p.2)).Nodup →
    mirrored (recordAllFrom st ps) := by
  induction ps with
  | nil =>
    intro st hm _ _ _ _
    exact hm
  | cons q rest ih =>
    intro st hm hfd hfs hnd hns
    have hqd : q.1 ∉ odKeys st.d2s := hfd q (List.mem_cons_self q rest)
    have hqs : q.2 ∉ odKeys st.s2d := hfs q (List.mem_cons_self q rest)
    have hm2 := cachePair_mirrored (w := false) hm hqd hqs
    have hndc : (q.1 :: rest.map (fun p => p.1)).Nodup := by
      simpa only [List.map_cons] using hnd
    have hnsc : (q.2 :: rest.map (fun p => p.2)).Nodup := by
      simpa only [List.map_cons] using hns
    have hnd1 := (List.nodup_cons.1 hndc).1
    have hnd2 := (List.nodup_cons.1 hndc).2
    have hns1 := (List.nodup_cons.1 hnsc).1
    have hns2 := (List.nodup_cons.1 hnsc).2
    have hstep : recordAllFrom st (q :: rest) =
        recordAllFrom (cachePair st q.1 q.2 false) rest := rfl
    rw [hstep]
    refine ih _ hm2 ?_ ?_ hnd2 hns2
    · intro p hp hmem
      rcases odKeys_odRecord_fresh_subset hqd p.1 hmem with h | h
      · exact hfd p (List.mem_cons_of_mem q hp) h
      · exact hnd1 (h ▸ List.mem_map_of_mem (fun p => p.1) hp)
    · intro p hp hmem
      rcases odKeys_odRecord_fresh_subset hqs p.2 hmem with h | h
      · exact hfs p (List.mem_cons_of_mem q hp) h
      · exact hns1 (h ▸ List.mem_map_of_mem (fun p => p.2) hp)

/-- Under the mirror invariant, the two directions resolve exactly the
same pairs. -/
theorem mirrored_lookup_iff {st : BridgeState} (h : mirrored st)
    {a : Nat} {b : String} :
    lookupD2S st a = some b ↔ lookupS2D st b = some a := by
  obtain ⟨hmir, hnd, hns⟩ := h
  rw [lookupD2S, lookupS2D, odGet_eq_some_iff_mem hnd,
    odGet_eq_some_iff_mem hns, hmir, List.mem_map]
  constructor
  · intro hm
    exact ⟨(a, b), hm, rfl⟩
  · rintro ⟨⟨p1, p2⟩, hp, he⟩
    simp only [Prod.mk.injEq] at he
    obtain ⟨h2, h1⟩ := he
    subst h2
    subst h1
    exact hp

/-- Recording pairwise-fresh pairs while under capacity just appends
them to both maps, in order. -/
theorem recordAllFrom_fresh_build (ps : List (Nat × String)) :
    ∀ st : BridgeState,
    (∀ p ∈ ps, p.1 ∉ odKeys st.d2s) →
    (∀ p ∈ ps, p.2 ∉ odKeys st.s2d) →
    (ps.map (fun p => p.1)).Nodup →
    (ps.map (fun p => p.2)).Nodup →
    st.d2s.length + ps.length ≤ MSG_CACHE_SIZE →
    st.s2d.length + ps.length ≤ MSG_CACHE_SIZE →
    (recordAllFrom st ps).d2s = st.d2s ++ ps ∧
    (recordAllFrom st ps).s2d = st.s2d ++ ps.map (fun p => (p.2, p.1)) := by
  induction ps with
  | nil =>
    intro st _ _ _ _ _ _
    simp [recordAllFrom]
  | cons q rest ih =>
    intro st hfd hfs hnd hns hlend hlens
    have hqd : q.1 ∉ odKeys st.d2s := hfd q (List.mem_cons_self q rest)
    have hqs : q.2 ∉ odKeys st.s2d := hfs q (List.mem_cons_self q rest)
    have hndc : (q.1 :: rest.map (fun p => p.1)).Nodup := by
      simpa only [List.map_cons] using hnd
    have hnsc : (q.2 :: rest.map (fun p => p.2)).Nodup := by
      simpa only [List.map_cons] using hns
    have hnd1 := (List.nodup_cons.1 hndc).1
    have hnd2 := (List.nodup_cons.1 hndc).2
    have hns1 := (List.nodup_cons.1 hnsc).1
    have hns2 := (List.nodup_cons.1 hnsc).2
    have hlen : q :: rest ≠ ([] : List (Nat × String)) := by simp
    have hlcons : (q :: rest).length = rest.length + 1 := rfl
    have hd2s : (cachePair st q.1 q.2 false).d2s = st.d2s ++ [q] := by
      show odRecord MSG_CACHE_SIZE q.1 q.2 st.d2s = st.d2s ++ [q]
      rw [odRecord_fresh_no_evict hqd (by rw [hlcons] at hlend; omega)]
    have hs2d : (cachePair st q.1 q.2 false).s2d = st.s2d ++ [(q.2, q.1)] := by
      show odRecord MSG_CACHE_SIZE q.2 q.1 st.s2d = st.s2d ++ [(q.2, q.1)]
      rw [odRecord_fresh_no_evict hqs (by rw [hlcons] at hlens; omega)]
    have hstep : recordAllFrom st (q :: rest) =
        recordAllFrom (cachePair st q.1 q.2 false) rest := rfl
    rw [hstep]
    have hkd : odKeys (st.d2s ++ [q]) = odKeys st.d2s ++ [q.1] := by
      simp [odKeys]
    have hks : odKeys (st.s2d ++ [(q.2, q.1)]) = odKeys st.s2d ++ [q.2] := by
      simp [odKeys]
    obtain ⟨ih1, ih2⟩ := ih (cachePair st q.1 q.2 false)
      (by
        intro p hp
        rw [hd2s, hkd]
        simp only [List.mem_append, List.mem_singleton]
        rintro (h | h)
        · exact hfd p (List.mem_cons_of_mem q hp) h
        · exact hnd1 (h ▸ List.mem_map_of_mem (fun p => p.1) hp))
      (by
        intro p hp
        rw [hs2d, hks]
        simp only [List.mem_append, List.mem_singleton]
        rintro (h | h)
        · exact hfs p (List.mem_cons_of_mem q hp) h
        · exact hns1 (h ▸ List.mem_map_of_mem (fun p => p.2) hp))
      hnd2 hns2
      (by rw [hd2s, List.length_append, List.length_singleton]
          rw [hlcons] at hlend; omega)
      (by rw [hs2d, List.length_append, List.length_singleton]
          rw [hlcons] at hlens; omega)
    rw [ih1, ih2, hd2s, hs2d]
    constructor
    · rw [List.append_assoc]
      rfl
    · rw [List.append_assoc]
      rfl


/-! ### Handler step lemmas for delete propagation -/

theorem onRawMessageDelete_suppressed {cfg : Config}
    {outcome : Action → DeleteCallResult} {st : BridgeState} {a dc : Nat}
    (hin : a ∈ st.discordDeleting) :
    onRawMessageDelete cfg outcome st a dc =
      ({ st with discordDeleting := st.discordDeleting.erase a }, []) := by
  simp [onRawMessageDelete, consumeIfSelfInitiated, hin]

theorem onRawMessageDelete_external {cfg : Config}
    {outcome : Action → DeleteCallResult} {st : BridgeState} {a dc : Nat}
    {sc b : String} (hext : a ∉ st.discordDeleting)
    (hch : cfg.discordToStoat dc = some sc)
    (hcache : lookupD2S st a = some b)
    (hsucc : outcome (Action.deleteStoatMessage sc b)
      = DeleteCallResult.success) :
    onRawMessageDelete cfg outcome st a dc =
      ({ st with stoatDeleting := markSelfInitiated st.stoatDeleting b },
       [Action.deleteStoatMessage sc b]) := by
  simp [onRawMessageDelete, consumeIfSelfInitiated, hext, hch, hcache, hsucc]

theorem stoatOnMessageDelete_suppressed (cfg : Config)
    (webhooks : List (Nat × Nat)) (outcome : Action → DeleteCallResult)
    (st : BridgeState) (b : String) (ch : Option String)
    (hin : b ∈ st.stoatDeleting) :
    stoatOnMessageDelete cfg webhooks outcome st b ch =
      ({ st with stoatDeleting := st.stoatDeleting.erase b }, []) := by
  simp [stoatOnMessageDelete, consumeIfSelfInitiated, hin]

theorem stoatOnMessageDelete_external_webhook {cfg : Config}
    {webhooks : List (Nat × Nat)} {outcome : Action → DeleteCallResult}
    {st : BridgeState} {a dc wh : Nat} {sc b : String}
    (hext : b ∉ st.stoatDeleting) (hcache : lookupS2D st b = some a)
    (hch : cfg.stoatToDiscord sc = some dc)
    (hwh : odGet dc webhooks = some wh) (hmem : a ∈ st.webhookDiscordIds)
    (hsucc : outcome (Action.deleteDiscordWebhookMessage wh a)
      = DeleteCallResult.success) :
    stoatOnMessageDelete cfg webhooks outcome st b (some sc) =
      ({ st with discordDeleting := markSelfInitiated st.discordDeleting a,
                 webhookDiscordIds := st.webhookDiscordIds.erase a },
       [Action.deleteDiscordWebhookMessage wh a]) := by
  simp [stoatOnMessageDelete, consumeIfSelfInitiated, hext, hcache, hch, hwh,
    hmem, hsucc]

theorem stoatOnMessageDelete_external_user {cfg : Config}
    {webhooks : List (Nat × Nat)} {outcome : Action → DeleteCallResult}
    {st : BridgeState} {a dc : Nat} {sc b : String}
    (hext : b ∉ st.stoatDeleting) (hcache : lookupS2D st b = some a)
    (hch : cfg.stoatToDiscord sc = some dc) (hmem : a ∉ st.webhookDiscordIds)
    (hsucc : outcome (Action.deleteDiscordUserMessage dc a)
      = DeleteCallResult.success) :
    stoatOnMessageDelete cfg webhooks outcome st b (some sc) =
      ({ st with discordDeleting := markSelfInitiated st.discordDeleting a },
       [Action.deleteDiscordUserMessage dc a]) := by
  simp [stoatOnMessageDelete, consumeIfSelfInitiated, hext, hcache, hch,
    hmem, hsucc]

/-! ### Eviction of the oldest pair at capacity -/

/-- Recording pairwise-fresh pairs up to exactly the cache capacity and
then one more fresh pair evicts exactly the oldest pair from both
directions, while lookups (pure reads) still found the oldest pair right
before the eviction. -/
theorem oldest_pair_evicted (ps rest : List (Nat × String))
    (q : Nat × String) (a : Nat) (b : String)
    (hps : ps = q :: rest)
    (hlen : ps.length = MSG_CACHE_SIZE)
    (hnd : (ps.map (fun p => p.1)).Nodup)
    (hns : (ps.map (fun p => p.2)).Nodup)
    (hfa : a ∉ ps.map (fun p => p.1))
    (hfb : b ∉ ps.map (fun p => p.2)) :
    lookupD2S (recordAll ps) q.1 = some q.2 ∧
    lookupS2D (recordAll ps) q.2 = some q.1 ∧
    lookupD2S (cachePair (recordAll ps) a b false) q.1 = none ∧
    lookupS2D (cachePair (recordAll ps) a b false) q.2 = none := by
  obtain ⟨q1, q2⟩ := q
  obtain ⟨hd2s, hs2d⟩ := recordAllFrom_fresh_build ps emptyState
    (fun p _ => by simp [emptyState, odKeys])
    (fun p _ => by simp [emptyState, odKeys])
    hnd hns
    (by simp [emptyState]; omega)
    (by simp [emptyState]; omega)
  have hd2s2 : (recordAll ps).d2s = ps := by
    rw [recordAll, hd2s]
    simp [emptyState]
  have hs2d2 : (recordAll ps).s2d = ps.map (fun p => (p.2, p.1)) := by
    rw [recordAll, hs2d]
    simp [emptyState]
  have hkeysA : odKeys ps = ps.map (fun p => p.1) := rfl
  have hkeysB : odKeys (ps.map (fun p => (p.2, p.1))) = ps.map (fun p => p.2) := by
    simp [odKeys, List.map_map]
  have hfrA : a ∉ odKeys ps := by rw [hkeysA]; exact hfa
  have hfrB : b ∉ odKeys (ps.map (fun p => (p.2, p.1))) := by
    rw [hkeysB]; exact hfb
  have hndc : (q1 :: rest.map (fun p => p.1)).Nodup := by
    rw [hps] at hnd
    simpa only [List.map_cons] using hnd
  have hnsc : (q2 :: rest.map (fun p => p.2)).Nodup := by
    rw [hps] at hns
    simpa only [List.map_cons] using hns
  have hq1a : q1 ≠ a := by
    intro he
    apply hfa
    rw [← he, hps]
    exact List.mem_cons_self _ _
  have hq2b : q2 ≠ b := by
    intro he
    apply hfb
    rw [← he, hps]
    exact List.mem_cons_self _ _
  have hd2sE : (cachePair (recordAll ps) a b false).d2s = rest ++ [(a, b)] := by
    show odRecord MSG_CACHE_SIZE a b (recordAll ps).d2s = rest ++ [(a, b)]
    rw [hd2s2, odRecord_fresh_evict hfrA hlen (by rw [MSG_CACHE_SIZE]; omega),
      hps]
    rfl
  have hs2dE : (cachePair (recordAll ps) a b false).s2d =
      rest.map (fun p => (p.2, p.1)) ++ [(b, a)] := by
    show odRecord MSG_CACHE_SIZE b a (recordAll ps).s2d = _
    rw [hs2d2, odRecord_fresh_evict hfrB
      (by rw [List.length_map]; exact hlen) (by rw [MSG_CACHE_SIZE]; omega),
      hps]
    rfl
  refine ⟨?_, ?_, ?_, ?_⟩
  · rw [lookupD2S, hd2s2, hps]
    simp [odGet, List.find?]
  · rw [lookupS2D, hs2d2, hps]
    simp [odGet, List.find?]
  · rw [lookupD2S, hd2sE, odGet_eq_none_iff]
    intro hmem
    have : q1 ∈ odKeys rest ++ [a] := by
      simpa [odKeys] using hmem
    rcases List.mem_append.1 this with h | h
    · exact (List.nodup_cons.1 hndc).1 h
    · exact hq1a (by simpa using h)
  · rw [lookupS2D, hs2dE, odGet_eq_none_iff]
    intro hmem
    have : q2 ∈ rest.map (fun p => p.2) ++ [b] := by
      simpa [odKeys, List.map_map] using hmem
    rcases List.mem_append.1 this with h | h
    · exact (List.nodup_cons.1 hnsc).1 h
    · exact hq2b (by simpa using h)

/-! ### A concrete capacity-filling scenario -/

/-- The 500 pairwise-distinct Stoat ids: `sidW n` is the string of `n`
copies of the letter a. -/
def sidW (n : Nat) : String := ⟨List.replicate n 'a'⟩

theorem sidW_injective : Function.Injective sidW := by
  intro m n h
  have hd : List.replicate m 'a' = List.replicate n 'a' := congrArg String.data h
  simpa using congrArg List.length hd

/-- The 500 pairs `(i+1, sidW (i+1))` filling the cache to capacity. -/
def capacityPairs : List (Nat × String) :=
  (List.range MSG_CACHE_SIZE).map (fun i => (i + 1, sidW (i + 1)))

theorem capacityPairs_eq_cons :
    capacityPairs =
      (1, sidW 1) :: (List.range 499).map (fun i => (i + 2, sidW (i + 2))) := by
  rw [capacityPairs, MSG_CACHE_SIZE,
    show (500 : Nat) = 499 + 1 from rfl, List.range_succ_eq_map]
  rw [List.map_cons, List.map_map]
  rfl

theorem capacityPairs_length : capacityPairs.length = MSG_CACHE_SIZE := by
  simp [capacityPairs]

theorem capacityPairs_fst_nodup :
    (capacityPairs.map (fun p => p.1)).Nodup := by
  have h : capacityPairs.map (fun p => p.1) =
      (List.range MSG_CACHE_SIZE).map (fun i => i + 1) := by
    rw [capacityPairs, List.map_map]
    rfl
  rw [h]
  exact (List.nodup_range MSG_CACHE_SIZE).map (fun x y hxy => by omega)

theorem capacityPairs_snd_nodup :
    (capacityPairs.map (fun p => p.2)).Nodup := by
  have h : capacityPairs.map (fun p => p.2) =
      (List.range MSG_CACHE_SIZE).map (fun i => sidW (i + 1)) := by
    rw [capacityPairs, List.map_map]
    rfl
  rw [h]
  refine (List.nodup_range MSG_CACHE_SIZE).map ?_
  intro x y hxy
  have := sidW_injective hxy
  omega

theorem capacityPairs_fresh_fst :
    (MSG_CACHE_SIZE + 1) ∉ capacityPairs.map (fun p => p.1) := by
  rw [MSG_CACHE_SIZE]
  simp only [capacityPairs, MSG_CACHE_SIZE, List.map_map, List.mem_map,
    List.mem_range, Function.comp]
  rintro ⟨i, hi, he⟩
  omega

theorem capacityPairs_fresh_snd :
    sidW (MSG_CACHE_SIZE + 1) ∉ capacityPairs.map (fun p => p.2) := by
  rw [MSG_CACHE_SIZE]
  simp only [capacityPairs, MSG_CACHE_SIZE, List.map_map, List.mem_map,
    List.mem_range, Function.comp]
  rintro ⟨i, hi, he⟩
  have := sidW_injective he
  omega

/-! ### String and attachment helper lemmas -/

theorem pySlice_length_le (n : Nat) (s : String) : (pySlice n s).length ≤ n := by
  simp only [pySlice, String.length, List.length_take]
  omega

theorem replaceNewlines_length (s : String) :
    (replaceNewlines s).length = s.length := by
  show (s.data.map (fun c => if c = '\n' then ' ' else c)).length = s.data.length
  exact List.length_map _ _

theorem strJoin_cons (s : String) (l : List String) :
    String.join (s :: l) = s ++ String.join l := by
  have h : ∀ (l : List String) (a b : String),
      l.foldl (· ++ ·) (a ++ b) = a ++ l.foldl (· ++ ·) b := by
    intro l
    induction l with
    | nil => intro a b; rfl
    | cons x xs ih =>
      intro a b
      simp only [List.foldl_cons, String.append_assoc, ih]
  show (s :: l).foldl (· ++ ·) "" = s ++ l.foldl (· ++ ·) ""
  rw [List.foldl_cons, String.empty_append]
  have h2 := h l s ""
  rw [String.append_empty] at h2
  exact h2

theorem discordAppendAttachmentUrls_eq (urls : List String) :
    ∀ content : String,
    discordAppendAttachmentUrls content urls =
      content ++ String.join (urls.map (fun u => " " ++ u)) := by
  induction urls with
  | nil =>
    intro c
    rw [show (([] : List String).map (fun u => " " ++ u)) = [] from rfl,
      show String.join [] = "" from rfl, String.append_empty]
    rfl
  | cons u rest ih =>
    intro c
    simp only [discordAppendAttachmentUrls, List.foldl_cons,
      List.map_cons] at ih ⊢
    rw [ih (c ++ " " ++ u), strJoin_cons]
    simp [String.append_assoc]

/-- A successful `fetch_bytes` never returns more than `MAX_FILE_SIZE`
bytes (the post-read check). -/
theorem fetch_bytes_size_le {resp : HttpResponse} {url : String}
    {data : List Nat} {name : String} {flag : Bool}
    (h : fetch_bytes resp url = (some (data, name), flag)) :
    data.length ≤ MAX_FILE_SIZE := by
  unfold fetch_bytes at h
  split at h
  · simp at h
  · split at h
    · split at h
      · simp at h
      · split at h
        · simp at h
        · simp only [Prod.mk.injEq, Option.some_inj] at h
          obtain ⟨⟨h1, _⟩, _⟩ := h
          rw [← h1]
          omega
    · split at h
      · simp at h
      · simp only [Prod.mk.injEq, Option.some_inj] at h
        obtain ⟨⟨h1, _⟩, _⟩ := h
        rw [← h1]
        omega

theorem stoatAttachmentStep_files_le (acc : String × List (List Nat × String))
    (att : StoatAttachment)
    (hacc : ∀ f ∈ acc.2, f.1.length ≤ MAX_FILE_SIZE) :
    ∀ f ∈ (stoatAttachmentStep acc att).2, f.1.length ≤ MAX_FILE_SIZE := by
  intro f hf2
  unfold stoatAttachmentStep at hf2
  split at hf2
  · exact hacc f hf2
  · split at hf2
    · exact hacc f hf2
    · split at hf2
      · exact hacc f hf2
      · rename_i url hurl hne pr data fname hfetch
        rcases List.mem_append.1 hf2 with h | h
        · exact hacc f h
        · have hfe := List.mem_singleton.1 h
          have hfull : fetch_bytes att.resp url =
              (some (data, fname), (fetch_bytes att.resp url).2) := by
            rw [← hfetch]
          have hle := fetch_bytes_size_le hfull
          rw [hfe]
          exact hle

theorem processStoatAttachments_files_le (atts : List StoatAttachment) :
    ∀ acc : String × List (List Nat × String),
    (∀ f ∈ acc.2, f.1.length ≤ MAX_FILE_SIZE) →
    ∀ f ∈ (atts.foldl stoatAttachmentStep acc).2,
      f.1.length ≤ MAX_FILE_SIZE := by
  induction atts with
  | nil =>
    intro acc hacc
    exact hacc
  | cons att rest ih =>
    intro acc hacc
    rw [List.foldl_cons]
    exact ih _ (stoatAttachmentStep_files_le acc att hacc)

/-! ## Claims -/

/-- C4 is false on the code: `lookup` is `OrderedDict.get`, a pure read
that performs no `move_to_end`, so it does not refresh recency.  In the
state reached by recording 500 fresh pairs, the oldest pair
`(1, sidW 1)` is looked up successfully (and, the lookup being a pure
read, the state after the lookup is the same `recordAll capacityPairs`);
recording one more fresh pair nevertheless evicts exactly that
just-looked-up pair from both directions, contradicting the claim that
a pair looked up after older pairs were inserted is not the one
evicted. -/
theorem C4_counterexample_lookup_does_not_refresh :
    lookupD2S (recordAll capacityPairs) 1 = some (sidW 1) ∧
    lookupD2S (cachePair (recordAll capacityPairs) 501 (sidW 501) false) 1
      = none ∧
    lookupS2D (cachePair (recordAll capacityPairs) 501 (sidW 501) false)
      (sidW 1) = none := by
  have hfa : 501 ∉ capacityPairs.map (fun p => p.1) := by
    have := capacityPairs_fresh_fst
    simpa [MSG_CACHE_SIZE] using this
  have hfb : sidW 501 ∉ capacityPairs.map (fun p => p.2) := by
    have := capacityPairs_fresh_snd
    simpa [MSG_CACHE_SIZE] using this
  obtain ⟨h1, _, h3, h4⟩ := oldest_pair_evicted capacityPairs
    ((List.range 499).map (fun i => (i + 2, sidW (i + 2)))) (1, sidW 1)
    501 (sidW 501) capacityPairs_eq_cons capacityPairs_length
    capacityPairs_fst_nodup capacityPairs_snd_nodup hfa hfb
  exact ⟨h1, h3, h4⟩

/-- C4 amended: the correlation cache evicts in record order (recency is
refreshed only by re-recording an id, never by `lookup`, which is a pure
`dict.get` read leaving the state unchanged).  After recording `ps`
(pairwise-fresh pairs) filling the cache exactly to its capacity of 500,
the oldest pair is still found by lookup in both directions, and
recording one more fresh pair evicts exactly that oldest pair, after
which neither direction resolves its ids. -/
theorem C4_amended_record_order_eviction (ps rest : List (Nat × String))
    (q : Nat × String) (a : Nat) (b : String)
    (hps : ps = q :: rest)
    (hlen : ps.length = MSG_CACHE_SIZE)
    (hnd : (ps.map (fun p => p.1)).Nodup)
    (hns : (ps.map (fun p => p.2)).Nodup)
    (hfa : a ∉ ps.map (fun p => p.1))
    (hfb : b ∉ ps.map (fun p => p.2)) :
    lookupD2S (recordAll ps) q.1 = some q.2 ∧
    lookupS2D (recordAll ps) q.2 = some q.1 ∧
    lookupD2S (cachePair (recordAll ps) a b false) q.1 = none ∧
    lookupS2D (cachePair (recordAll ps) a b false) q.2 = none :=
  oldest_pair_evicted ps rest q a b hps hlen hnd hns hfa hfb

theorem C4_amended_witness :
    (capacityPairs =
        (1, sidW 1) :: (List.range 499).map (fun i => (i + 2, sidW (i + 2))) ∧
     capacityPairs.length = MSG_CACHE_SIZE ∧
     501 ∉ capacityPairs.map (fun p => p.1) ∧
     sidW 501 ∉ capacityPairs.map (fun p => p.2)) ∧
    (lookupD2S (recordAll capacityPairs) 1 = some (sidW 1) ∧
     lookupS2D (recordAll capacityPairs) (sidW 1) = some 1 ∧
     lookupD2S (cachePair (recordAll capacityPairs) 501 (sidW 501) false) 1
       = none ∧
     lookupS2D (cachePair (recordAll capacityPairs) 501 (sidW 501) false)
       (sidW 1) = none) :=
  ⟨⟨capacityPairs_eq_cons, capacityPairs_length,
    by simpa [MSG_CACHE_SIZE] using capacityPairs_fresh_fst,
    by simpa [MSG_CACHE_SIZE] using capacityPairs_fresh_snd⟩,
   C4_amended_record_order_eviction capacityPairs
     ((List.range 499).map (fun i => (i + 2, sidW (i + 2)))) (1, sidW 1)
     501 (sidW 501) capacityPairs_eq_cons capacityPairs_length
     capacityPairs_fst_nodup capacityPairs_snd_nodup
     (by simpa [MSG_CACHE_SIZE] using capacityPairs_fresh_fst)
     (by simpa [MSG_CACHE_SIZE] using capacityPairs_fresh_snd)⟩

/-- C5: For every platform and message id, after `mark_self_initiated`
(inserting into the per-direction marker set), the first
`consume_if_self_initiated` returns true and removes the marker, and a
second consume for the same id with no intervening mark returns false:
a marker is consumed at most once.  Stated for both marker-set types the
bridge uses (`_discord_deleting : set[int]`, `_stoat_deleting : set[str]`). -/
theorem C5_loop_guard_marker_consumed_once :
    (∀ (s : Finset Nat) (i : Nat),
      (consumeIfSelfInitiated (markSelfInitiated s i) i).1 = true ∧
      i ∉ (consumeIfSelfInitiated (markSelfInitiated s i) i).2 ∧
      (consumeIfSelfInitiated
        (consumeIfSelfInitiated (markSelfInitiated s i) i).2 i).1 = false) ∧
    (∀ (s : Finset String) (i : String),
      (consumeIfSelfInitiated (markSelfInitiated s i) i).1 = true ∧
      i ∉ (consumeIfSelfInitiated (markSelfInitiated s i) i).2 ∧
      (consumeIfSelfInitiated
        (consumeIfSelfInitiated (markSelfInitiated s i) i).2 i).1 = false) := by
  constructor <;>
  · intro s i
    refine ⟨?_, ?_, ?_⟩
    · simp [consumeIfSelfInitiated, markSelfInitiated]
    · simp [consumeIfSelfInitiated, markSelfInitiated, Finset.not_mem_erase]
    · simp [consumeIfSelfInitiated, markSelfInitiated, Finset.not_mem_erase]

/-- C8: sanitizing `"<@123> said <#456> is fun :joy:"` with a resolver
mapping user 123 to "Alex" and channel 456 to "general" returns exactly
`"@Alex said #general is fun :joy:"` (the `:joy:` token matches no
custom-emoji pattern and is left as-is); and unresolvable user, channel
and role tokens fall back to `@user<id>`, `#channel` and `@role`. -/
theorem C8_clean_discord_content_example :
    clean_discord_content
      (fun n => if n = 123 then some "Alex" else none)
      (fun n => if n = 456 then some "general" else none)
      (fun _ => none)
      "<@123> said <#456> is fun :joy:" = "@Alex said #general is fun :joy:" ∧
    clean_discord_content (fun _ => none) (fun _ => none) (fun _ => none)
      "<@7> <#9> <@&5>" = "@user7 #channel @role" := by
  constructor <;> decide

/-- C2 is false on the code: `_cache_pair` removes nothing from the
reverse direction when an id is re-recorded.  After `record(1, "x")`
followed by `record(1, "y")`, the B→A map still resolves the stale
`"x"` to `1` (the claim asserts it no longer resolves), even though the
A→B map now maps `1` to `"y"`. -/
theorem C2_counterexample_stale_reverse_entry_resolves :
    lookupS2D (cachePair (cachePair emptyState 1 "x" false) 1 "y" false) "x"
      = some 1 ∧
    lookupD2S (cachePair (cachePair emptyState 1 "x" false) 1 "y" false) 1
      = some "y" := by
  constructor <;> decide

/-- C2 amended: `record(a, b)` refreshes and overwrites the entry keyed
by a re-recorded id in that id's own direction only; the old peer's
entry in the reverse direction is not removed.  After `record(a, b1)`
then `record(a, b2)` the A→B map resolves `a` to `b2`, while the B→A
map resolves both the stale `b1` and the new `b2` to `a`. -/
theorem C2_amended_re_record_overwrites_own_direction_only
    (a : Nat) (b1 b2 : String) (hne : b1 ≠ b2) :
    lookupD2S (cachePair (cachePair emptyState a b1 false) a b2 false) a
      = some b2 ∧
    lookupS2D (cachePair (cachePair emptyState a b1 false) a b2 false) b1
      = some a ∧
    lookupS2D (cachePair (cachePair emptyState a b1 false) a b2 false) b2
      = some a := by
  have hne2 : (b1 == b2) = false := by simpa using hne
  have hne3 : (b2 == b1) = false := by simpa using Ne.symm hne
  refine ⟨?_, ?_, ?_⟩ <;>
    simp [lookupD2S, lookupS2D, cachePair, emptyState, odRecord, odSet,
      odGet, odMoveToEnd, odKeys, MSG_CACHE_SIZE, hne2, hne3, List.find?]

theorem C2_amended_witness :
    (("x" : String) ≠ "y") ∧
    (lookupD2S (cachePair (cachePair emptyState 1 "x" false) 1 "y" false) 1
      = some "y" ∧
    lookupS2D (cachePair (cachePair emptyState 1 "x" false) 1 "y" false) "x"
      = some 1 ∧
    lookupS2D (cachePair (cachePair emptyState 1 "x" false) 1 "y" false) "y"
      = some 1) :=
  ⟨by decide,
   C2_amended_re_record_overwrites_own_direction_only 1 "x" "y" (by decide)⟩

/-- C3 is false on the code: after `record(1, "x")` then `record(1, "y")`
(a re-record of the same Discord id), the entry `"x" ↦ 1` exists in the
B→A direction while the A→B direction does not contain `1 ↦ "x"` — an
entry exists in one direction but not the other. -/
theorem C3_counterexample_one_sided_entry :
    lookupS2D (cachePair (cachePair emptyState 1 "x" false) 1 "y" false) "x"
      = some 1 ∧
    ¬ (lookupD2S (cachePair (cachePair emptyState 1 "x" false) 1 "y" false) 1
      = some "x") := by
  constructor <;> decide

/-- C3 amended: after every sequence of `record` operations in which no
id is re-recorded (the Discord ids are pairwise distinct and the Stoat
ids are pairwise distinct), including capacity evictions, the cache
satisfies the both-directions-or-neither invariant: `a ↦ b` is in the
A→B map exactly when `b ↦ a` is in the B→A map.  Re-recording an
already-present id can break the invariant. -/
theorem C3_amended_mirror_invariant_for_fresh_records
    (ps : List (Nat × String))
    (h1 : (ps.map (fun p => p.1)).Nodup)
    (h2 : (ps.map (fun p => p.2)).Nodup) (a : Nat) (b : String) :
    lookupD2S (recordAll ps) a = some b ↔
    lookupS2D (recordAll ps) b = some a := by
  apply mirrored_lookup_iff
  exact recordAllFrom_mirrored ps emptyState emptyState_mirrored
    (fun p _ => by simp [emptyState, odKeys])
    (fun p _ => by simp [emptyState, odKeys])
    h1 h2

/-- C1: For a bridged pair (`a` on Discord, `b` on Stoat) recorded in
both directions of the correlation cache, with neither id pre-marked:
an external delete event for `a` triggers exactly one delete call for
`b` on Stoat, and the echo delete event for `b` then observed on Stoat
triggers no delete call back (the marker inserted before the delete
call is consumed); symmetrically, an external delete event for `b` on
Stoat triggers exactly one Discord delete call for `a` (a webhook
delete or a user-message delete according to `_webhook_discord_ids`),
and the echo delete event for `a` on Discord triggers no call back.
The A-delete→B-delete→A-delete cycle never occurs. -/
theorem C1_delete_propagation_breaks_cycle (cfg : Config)
    (webhooks : List (Nat × Nat)) (outcome : Action → DeleteCallResult)
    (st : BridgeState) (a : Nat) (b : String) (dc wh : Nat) (sc : String)
    (hpair1 : cfg.discordToStoat dc = some sc)
    (hpair2 : cfg.stoatToDiscord sc = some dc)
    (hcache1 : lookupD2S st a = some b)
    (hcache2 : lookupS2D st b = some a)
    (hext1 : a ∉ st.discordDeleting)
    (hext2 : b ∉ st.stoatDeleting)
    (hwh : odGet dc webhooks = some wh)
    (hsucc1 : outcome (Action.deleteStoatMessage sc b)
      = DeleteCallResult.success)
    (hsucc2 : outcome (Action.deleteDiscordWebhookMessage wh a)
      = DeleteCallResult.success)
    (hsucc3 : outcome (Action.deleteDiscordUserMessage dc a)
      = DeleteCallResult.success) :
    (onRawMessageDelete cfg outcome st a dc).2
      = [Action.deleteStoatMessage sc b] ∧
    (stoatOnMessageDelete cfg webhooks outcome
      (onRawMessageDelete cfg outcome st a dc).1 b (some sc)).2 = [] ∧
    b ∉ (stoatOnMessageDelete cfg webhooks outcome
      (onRawMessageDelete cfg outcome st a dc).1 b (some sc)).1.stoatDeleting ∧
    (stoatOnMessageDelete cfg webhooks outcome st b (some sc)).2
      = [if a ∈ st.webhookDiscordIds then Action.deleteDiscordWebhookMessage wh a
         else Action.deleteDiscordUserMessage dc a] ∧
    (onRawMessageDelete cfg outcome
      (stoatOnMessageDelete cfg webhooks outcome st b (some sc)).1 a dc).2
      = [] ∧
    a ∉ (onRawMessageDelete cfg outcome
      (stoatOnMessageDelete cfg webhooks outcome st b (some sc)).1 a
      dc).1.discordDeleting := by
  have h1 := onRawMessageDelete_external hext1 hpair1 hcache1 hsucc1
  have h2 := stoatOnMessageDelete_suppressed cfg webhooks outcome
    { st with stoatDeleting := markSelfInitiated st.stoatDeleting b }
    b (some sc) (by simp [markSelfInitiated])
  refine ⟨?_, ?_, ?_, ?_, ?_, ?_⟩
  · rw [h1]
  · rw [h1, h2]
  · rw [h1, h2]
    simp [Finset.not_mem_erase]
  · by_cases hmem : a ∈ st.webhookDiscordIds
    · rw [stoatOnMessageDelete_external_webhook hext2 hcache2 hpair2 hwh
        hmem hsucc2, if_pos hmem]
    · rw [stoatOnMessageDelete_external_user hext2 hcache2 hpair2
        hmem hsucc3, if_neg hmem]
  · by_cases hmem : a ∈ st.webhookDiscordIds
    · rw [stoatOnMessageDelete_external_webhook hext2 hcache2 hpair2 hwh
        hmem hsucc2,
        onRawMessageDelete_suppressed (by simp [markSelfInitiated])]
    · rw [stoatOnMessageDelete_external_user hext2 hcache2 hpair2
        hmem hsucc3,
        onRawMessageDelete_suppressed (by simp [markSelfInitiated])]
  · by_cases hmem : a ∈ st.webhookDiscordIds
    · rw [stoatOnMessageDelete_external_webhook hext2 hcache2 hpair2 hwh
        hmem hsucc2,
        onRawMessageDelete_suppressed (by simp [markSelfInitiated])]
      simp [Finset.not_mem_erase]
    · rw [stoatOnMessageDelete_external_user hext2 hcache2 hpair2
        hmem hsucc3,
        onRawMessageDelete_suppressed (by simp [markSelfInitiated])]
      simp [Finset.not_mem_erase]

theorem C1_witness :
    (lookupD2S (cachePair emptyState 10 "m" true) 10 = some "m" ∧
     lookupS2D (cachePair emptyState 10 "m" true) "m" = some 10 ∧
     10 ∉ (cachePair emptyState 10 "m" true).discordDeleting ∧
     "m" ∉ (cachePair emptyState 10 "m" true).stoatDeleting) ∧
    ((onRawMessageDelete { discordChannelIds := [1], stoatChannelIds := ["S"] }
        (fun _ => DeleteCallResult.success) (cachePair emptyState 10 "m" true)
        10 1).2 = [Action.deleteStoatMessage "S" "m"] ∧
     (stoatOnMessageDelete { discordChannelIds := [1], stoatChannelIds := ["S"] }
        [(1, 77)] (fun _ => DeleteCallResult.success)
        (onRawMessageDelete { discordChannelIds := [1], stoatChannelIds := ["S"] }
          (fun _ => DeleteCallResult.success) (cachePair emptyState 10 "m" true)
          10 1).1 "m" (some "S")).2 = [] ∧
     "m" ∉ (stoatOnMessageDelete
        { discordChannelIds := [1], stoatChannelIds := ["S"] }
        [(1, 77)] (fun _ => DeleteCallResult.success)
        (onRawMessageDelete { discordChannelIds := [1], stoatChannelIds := ["S"] }
          (fun _ => DeleteCallResult.success) (cachePair emptyState 10 "m" true)
          10 1).1 "m" (some "S")).1.stoatDeleting ∧
     (stoatOnMessageDelete { discordChannelIds := [1], stoatChannelIds := ["S"] }
        [(1, 77)] (fun _ => DeleteCallResult.success)
        (cachePair emptyState 10 "m" true) "m" (some "S")).2
        = [if 10 ∈ (cachePair emptyState 10 "m" true).webhookDiscordIds
           then Action.deleteDiscordWebhookMessage 77 10
           else Action.deleteDiscordUserMessage 1 10] ∧
     (onRawMessageDelete { discordChannelIds := [1], stoatChannelIds := ["S"] }
        (fun _ => DeleteCallResult.success)
        (stoatOnMessageDelete { discordChannelIds := [1], stoatChannelIds := ["S"] }
          [(1, 77)] (fun _ => DeleteCallResult.success)
          (cachePair emptyState 10 "m" true) "m" (some "S")).1 10 1).2 = [] ∧
     10 ∉ (onRawMessageDelete { discordChannelIds := [1], stoatChannelIds := ["S"] }
        (fun _ => DeleteCallResult.success)
        (stoatOnMessageDelete { discordChannelIds := [1], stoatChannelIds := ["S"] }
          [(1, 77)] (fun _ => DeleteCallResult.success)
          (cachePair emptyState 10 "m" true) "m" (some "S")).1 10
        1).1.discordDeleting) :=
  ⟨⟨by decide, by decide, by decide, by decide⟩,
   C1_delete_propagation_breaks_cycle
     { discordChannelIds := [1], stoatChannelIds := ["S"] } [(1, 77)]
     (fun _ => DeleteCallResult.success) (cachePair emptyState 10 "m" true)
     10 "m" 1 77 "S" (by decide) (by decide) (by decide) (by decide)
     (by decide) (by decide) (by decide) rfl rfl rfl⟩

theorem C3_amended_witness :
    ((([(1, "x"), (2, "y")] : List (Nat × String)).map (fun p => p.1)).Nodup ∧
     (([(1, "x"), (2, "y")] : List (Nat × String)).map (fun p => p.2)).Nodup) ∧
    (lookupD2S (recordAll [(1, "x"), (2, "y")]) 2 = some "y" ↔
     lookupS2D (recordAll [(1, "x"), (2, "y")]) "y" = some 2) :=
  ⟨⟨by decide, by decide⟩,
   C3_amended_mirror_invariant_for_fresh_records [(1, "x"), (2, "y")]
     (by decide) (by decide) 2 "y"⟩


/-- C6: an attachment download whose `Content-Length` header exceeds the
25 MiB cap fails before the body is read; a download whose actual byte
count exceeds the cap fails after the read; and in every failure case
(`fetch_bytes` returning `None`, whether from size or fetch error) the
attachment loop appends the raw source url as plain text to the outgoing
content and attaches no file. -/
theorem C6_attachment_size_cap_and_url_fallback (resp : HttpResponse)
    (url content : String) (att : StoatAttachment) :
    (∀ n, resp.contentLength = some n → MAX_FILE_SIZE < n →
      fetch_bytes resp url = (none, false)) ∧
    (resp.status = 200 →
      (∀ n, resp.contentLength = some n → n ≤ MAX_FILE_SIZE) →
      MAX_FILE_SIZE < resp.body.length →
      fetch_bytes resp url = (none, true)) ∧
    (att.url = some url → url ≠ "" →
      (fetch_bytes att.resp url).1 = none →
      processStoatAttachments content [att]
        = (content ++ "\n" ++ url, [])) := by
  refine ⟨?_, ?_, ?_⟩
  · intro n hcl hn
    by_cases hs : resp.status = 200
    · simp [fetch_bytes, hs, hcl, hn]
    · simp [fetch_bytes, hs]
  · intro hs hcl hbody
    cases hclv : resp.contentLength with
    | none => simp [fetch_bytes, hs, hclv, hbody]
    | some n =>
      have hle := hcl n hclv
      simp [fetch_bytes, hs, hclv, hbody, Nat.not_lt.2 hle]
  · intro hau hurl hfail
    simp [processStoatAttachments, stoatAttachmentStep, hau, hurl, hfail]

theorem C6_witness :
    ((⟨200, some (30 * 1024 * 1024), []⟩ : HttpResponse).contentLength
        = some (30 * 1024 * 1024) ∧
     MAX_FILE_SIZE < 30 * 1024 * 1024 ∧
     (⟨200, none, List.replicate (MAX_FILE_SIZE + 1) 0⟩ : HttpResponse).status
        = 200 ∧
     MAX_FILE_SIZE <
       (⟨200, none, List.replicate (MAX_FILE_SIZE + 1) 0⟩ :
         HttpResponse).body.length) ∧
    (fetch_bytes ⟨200, some (30 * 1024 * 1024), []⟩ "http://h/f.png"
        = (none, false) ∧
     fetch_bytes ⟨200, none, List.replicate (MAX_FILE_SIZE + 1) 0⟩ "u"
        = (none, true) ∧
     processStoatAttachments "hi"
        [⟨some "http://h/f.png", some "f.png", ⟨200, some (30 * 1024 * 1024), []⟩⟩]
        = ("hi" ++ "\n" ++ "http://h/f.png", [])) :=
  ⟨⟨rfl, by decide, rfl,
    by
      show MAX_FILE_SIZE < (List.replicate (MAX_FILE_SIZE + 1) 0).length
      rw [List.length_replicate]
      omega⟩,
   (C6_attachment_size_cap_and_url_fallback ⟨200, some (30 * 1024 * 1024), []⟩
      "http://h/f.png" "hi"
      ⟨some "http://h/f.png", some "f.png", ⟨200, some (30 * 1024 * 1024), []⟩⟩).1
     (30 * 1024 * 1024) rfl (by decide),
   (C6_attachment_size_cap_and_url_fallback
      ⟨200, none, List.replicate (MAX_FILE_SIZE + 1) 0⟩ "u" "hi"
      ⟨some "http://h/f.png", some "f.png", ⟨200, some (30 * 1024 * 1024), []⟩⟩).2.1
     rfl (by intro n hn; cases hn)
     (by
       show MAX_FILE_SIZE < (List.replicate (MAX_FILE_SIZE + 1) 0).length
       rw [List.length_replicate]
       omega),
   (C6_attachment_size_cap_and_url_fallback ⟨200, some (30 * 1024 * 1024), []⟩
      "http://h/f.png" "hi"
      ⟨some "http://h/f.png", some "f.png", ⟨200, some (30 * 1024 * 1024), []⟩⟩).2.2
     rfl (by decide)
     (by
       have h1 := (C6_attachment_size_cap_and_url_fallback
         ⟨200, some (30 * 1024 * 1024), []⟩ "http://h/f.png" "hi"
         ⟨some "http://h/f.png", some "f.png",
           ⟨200, some (30 * 1024 * 1024), []⟩⟩).1
         (30 * 1024 * 1024) rfl (by decide)
       rw [h1])⟩

/-- C7 is false on the code for the Stoat → Discord direction: even when
the replied-to Stoat id is present in the correlation cache, the forward
does not use any native reply linkage (the webhook send call has no
reply argument at all); it synthesizes the quote header from the
best-effort fetch instead. -/
theorem C7_counterexample_stoat_direction_ignores_cache :
    lookupS2D (cachePair emptyState 10 "b" true) "b" = some 10 ∧
    forwardStoatMessage (cachePair emptyState 10 "b" true) "msg" (some "b")
      (some ("Bob", "hello")) [] "Bob" =
      some { content := some "-# ↩ **Bob**: *hello*\nmsg",
             username := "Bob", files := [] } := by
  constructor <;> decide

/-- C7 amended: reply resolution is asymmetric.  In the Discord → Stoat
direction a cache hit produces native reply linkage with the content
unchanged, and a cache miss produces a synthesized quote header
(author truncated to 50 characters, snippet truncated to 80 characters
with newlines replaced by spaces) prepended to the content, omitted on
fetch failure with the message still forwarded.  In the Stoat → Discord
direction the correlation cache is not consulted: the quote header is
always synthesized from a best-effort fetch (also when the replied-to id
is cached), and on fetch failure the quote is omitted and the message is
still forwarded. -/
theorem C7_amended_reply_resolution (st : BridgeState)
    (content author orig : String) (refId : Nat) (sid rid : String)
    (fetched : Option (String × String)) :
    (lookupD2S st refId = some sid → sid ≠ "" →
      discordReplyStep st content (some refId) fetched = (content, [sid])) ∧
    (lookupD2S st refId = none →
      discordReplyStep st content (some refId) (some (author, orig)) =
        ("-# ↩ **" ++ pySlice 50 author ++ "**: *" ++
          replaceNewlines (pySlice 80 orig) ++ "*\n" ++ content, [])) ∧
    ((pySlice 50 author).length ≤ 50 ∧
      (replaceNewlines (pySlice 80 orig)).length ≤ 80) ∧
    (lookupD2S st refId = none → pyStrip content ≠ "" →
      forwardDiscordMessage st content (some refId) none [] author =
        some { masqueradeName := pySlice 32 author,
               content := pySlice 2000 content, replies := [] }) ∧
    (rid ≠ "" →
      stoatReplyStep content (some rid) (some (author, orig)) =
        "-# ↩ **" ++ pySlice 50 author ++ "**: *" ++
          replaceNewlines (pySlice 80 orig) ++ "*\n" ++ content) ∧
    (pyStrip content ≠ "" →
      forwardStoatMessage st content (some rid) none [] author =
        some { content := some (pySlice 2000 content),
               username := pySlice 80 author, files := [] }) := by
  refine ⟨?_, ?_, ⟨pySlice_length_le 50 author, ?_⟩, ?_, ?_, ?_⟩
  · intro hhit hne
    simp [discordReplyStep, hhit, hne]
  · intro hmiss
    simp [discordReplyStep, hmiss]
  · rw [replaceNewlines_length]
    exact pySlice_length_le 80 orig
  · intro hmiss hcontent
    simp [forwardDiscordMessage, discordReplyStep, hmiss,
      discordAppendAttachmentUrls, hcontent]
  · intro hrid
    simp [stoatReplyStep, hrid]
  · intro hcontent
    simp [forwardStoatMessage, stoatReplyStep, processStoatAttachments,
      hcontent]

theorem C7_amended_witness :
    (lookupD2S (cachePair emptyState 5 "s5" false) 5 = some "s5" ∧
     ("s5" : String) ≠ "" ∧ lookupD2S emptyState 5 = none ∧
     pyStrip "hi" ≠ "" ∧ ("r" : String) ≠ "") ∧
    (discordReplyStep (cachePair emptyState 5 "s5" false) "hi" (some 5) none
        = ("hi", ["s5"]) ∧
     discordReplyStep emptyState "hi" (some 5) (some ("Bob", "yo")) =
        ("-# ↩ **" ++ pySlice 50 "Bob" ++ "**: *" ++
          replaceNewlines (pySlice 80 "yo") ++ "*\n" ++ "hi", []) ∧
     forwardDiscordMessage emptyState "hi" (some 5) none [] "Bob" =
        some { masqueradeName := pySlice 32 "Bob",
               content := pySlice 2000 "hi", replies := [] } ∧
     stoatReplyStep "hi" (some "r") (some ("Bob", "yo")) =
        "-# ↩ **" ++ pySlice 50 "Bob" ++ "**: *" ++
          replaceNewlines (pySlice 80 "yo") ++ "*\n" ++ "hi" ∧
     forwardStoatMessage emptyState "hi" (some "r") none [] "Bob" =
        some { content := some (pySlice 2000 "hi"),
               username := pySlice 80 "Bob", files := [] }) :=
  ⟨⟨by decide, by decide, by decide, by decide, by decide⟩,
   (C7_amended_reply_resolution (cachePair emptyState 5 "s5" false) "hi"
      "Bob" "yo" 5 "s5" "r" none).1 (by decide) (by decide),
   (C7_amended_reply_resolution emptyState "hi" "Bob" "yo" 5 "s5" "r"
      none).2.1 (by decide),
   (C7_amended_reply_resolution emptyState "hi" "Bob" "yo" 5 "s5" "r"
      none).2.2.2.1 (by decide) (by decide),
   (C7_amended_reply_resolution emptyState "hi" "Bob" "yo" 5 "s5" "r"
      none).2.2.2.2.1 (by decide),
   (C7_amended_reply_resolution emptyState "hi" "Bob" "yo" 5 "s5" "r"
      none).2.2.2.2.2 (by decide)⟩

/-- C9: in both directions the text content handed to the destination
send call is the Python slice `content[:2000]` of the assembled content,
hence at most 2000 characters, whatever the lengths of the sanitized
content, quote header and appended urls. -/
theorem C9_send_content_at_most_2000 (st : BridgeState)
    (content author s : String) (ref : Option Nat) (replyId : Option String)
    (fetched : Option (String × String)) (urls : List String)
    (atts : List StoatAttachment) (callD : StoatSendCall)
    (callS : DiscordSendCall) :
    (forwardDiscordMessage st content ref fetched urls author = some callD →
      callD.content.length ≤ 2000) ∧
    (forwardStoatMessage st content replyId fetched atts author = some callS →
      callS.content = some s → s.length ≤ 2000) := by
  constructor
  · intro h
    unfold forwardDiscordMessage at h
    simp only [] at h
    split at h
    · simp at h
    · simp only [Option.some_inj] at h
      rw [← h]
      exact pySlice_length_le 2000 _
  · intro h hs
    unfold forwardStoatMessage at h
    simp only [] at h
    split at h
    · simp at h
    · simp only [Option.some_inj] at h
      rw [← h] at hs
      split at hs
      · simp at hs
      · simp only [Option.some_inj] at hs
        rw [← hs]
        exact pySlice_length_le 2000 _

theorem C9_witness :
    (forwardDiscordMessage emptyState "hi" none none [] "A" =
        some { masqueradeName := pySlice 32 "A",
               content := pySlice 2000 "hi", replies := [] } ∧
     forwardStoatMessage emptyState "hi" none none [] "A" =
        some { content := some (pySlice 2000 "hi"),
               username := pySlice 80 "A", files := [] } ∧
     ({ content := some (pySlice 2000 "hi"), username := pySlice 80 "A",
        files := [] } : DiscordSendCall).content = some (pySlice 2000 "hi")) ∧
    (({ masqueradeName := pySlice 32 "A", content := pySlice 2000 "hi",
        replies := [] } : StoatSendCall).content.length ≤ 2000 ∧
     (pySlice 2000 "hi").length ≤ 2000) :=
  ⟨⟨by decide, by decide, rfl⟩,
   (C9_send_content_at_most_2000 emptyState "hi" "A" (pySlice 2000 "hi")
      none none none [] []
      { masqueradeName := pySlice 32 "A", content := pySlice 2000 "hi",
        replies := [] }
      { content := some (pySlice 2000 "hi"), username := pySlice 80 "A",
        files := [] }).1 (by decide),
   (C9_send_content_at_most_2000 emptyState "hi" "A" (pySlice 2000 "hi")
      none none none [] []
      { masqueradeName := pySlice 32 "A", content := pySlice 2000 "hi",
        replies := [] }
      { content := some (pySlice 2000 "hi"), username := pySlice 80 "A",
        files := [] }).2 (by decide) rfl⟩

/-- C10: in the Discord → Stoat direction attachments are never
downloaded — each attachment url is appended, space-separated, to the
outgoing text (and the Stoat send call carries text only, it has no file
argument); the byte relay under the 25 MiB cap lives only in the
Stoat → Discord direction, where every file handed to the webhook send
call is within the cap. -/
theorem C10_attachments_as_urls_and_relay_direction (content : String)
    (urls : List String) (atts : List StoatAttachment) :
    discordAppendAttachmentUrls content urls =
      content ++ String.join (urls.map (fun u => " " ++ u)) ∧
    (∀ f ∈ (processStoatAttachments content atts).2,
      f.1.length ≤ MAX_FILE_SIZE) := by
  constructor
  · exact discordAppendAttachmentUrls_eq urls content
  · exact processStoatAttachments_files_le atts (content, [])
      (by intro f hf; cases hf)

theorem C10_witness :
    (discordAppendAttachmentUrls "hi" ["http://a", "http://b"] =
      "hi" ++ String.join (["http://a", "http://b"].map (fun u => " " ++ u)) ∧
     ∀ f ∈ (processStoatAttachments "hi"
        [⟨some "u", some "f.png", ⟨200, none, [7, 7]⟩⟩]).2,
       f.1.length ≤ MAX_FILE_SIZE) ∧
    (processStoatAttachments "hi"
        [⟨some "u", some "f.png", ⟨200, none, [7, 7]⟩⟩]).2
      = [([7, 7], "f.png")] :=
  ⟨⟨(C10_attachments_as_urls_and_relay_direction "hi" ["http://a", "http://b"]
      [⟨some "u", some "f.png", ⟨200, none, [7, 7]⟩⟩]).1,
    (C10_attachments_as_urls_and_relay_direction "hi" ["http://a", "http://b"]
      [⟨some "u", some "f.png", ⟨200, none, [7, 7]⟩⟩]).2⟩,
   by decide⟩

end Bridge
